import Mathlib

/-!
Verification of the concerto CLI transport layer.

This file gives a shallow embedding of the response-classification code in
utils/utils.go (CheckReturnCode, ScrapeErrorMessage) and of the web-service
request primitives (Webservice.Post, Webservice.Get, Webservice.GetFile).

Strings are modelled as Lean strings (sequences of characters; the Go code
operates on bytes/runes, which coincides on the ASCII data involved here).
The three regular expressions used by the classifier and the
Content-Disposition filename pattern are constants in the source, so each is
embedded as the string function computing Go regexp.FindStringSubmatch for
that fixed pattern, with Go RE2 leftmost-first semantics: the match starts at
the earliest possible position, a lazy group captures as little as possible,
and the dot does not match a newline.
-/

set_option maxRecDepth 8000

namespace Concerto

/-- Go strings.Contains: does the haystack contain the needle as a
contiguous sublist? -/
def containsS (needle : List Char) : List Char → Bool
  | [] => needle.isEmpty
  | c :: rest => needle.isPrefixOf (c :: rest) || containsS needle rest

/-- Matching the tail of a pattern of the shape pre(.*?)suf at a fixed
position: the lazy group captures the characters up to the first
occurrence of suf; it fails if a newline (which the dot does not match)
or the end of the input is reached before suf occurs. -/
def scanLazy (suf : List Char) : List Char → Option (List Char)
  | [] => if suf.isEmpty then some [] else none
  | c :: rest =>
    if suf.isPrefixOf (c :: rest) then some []
    else if c = '\n' then none
    else
      match scanLazy suf rest with
      | some cap => some (c :: cap)
      | none => none

/-- Go regexp.FindStringSubmatch for a constant pattern of the shape
pre(.*?)suf, returning the capture group of the leftmost match: positions
are tried left to right, and at the first position where the literal pre
matches and the lazy tail succeeds, the capture is returned. -/
def findCapture (pre suf : List Char) : List Char → Option (List Char)
  | [] => if pre.isEmpty then scanLazy suf [] else none
  | c :: rest =>
    if pre.isPrefixOf (c :: rest) then
      match scanLazy suf (List.drop pre.length (c :: rest)) with
      | some cap => some cap
      | none => findCapture pre suf rest
    else findCapture pre suf rest

/-- Capture of the pattern <title>(.*?)</title> used by the html branch of
utils.CheckReturnCode. -/
def titleCapture (s : String) : Option (List Char) :=
  findCapture "<title>".toList "</title>".toList s.toList

/-- Capture of the pattern \x7b"errors":(.*?)\x7d used by the json-errors
branch of utils.CheckReturnCode. -/
def errorsCapture (s : String) : Option (List Char) :=
  findCapture "\x7b\"errors\":".toList "\x7d".toList s.toList

/-- Capture of the pattern \x7b"error":"(.*?)"\x7d used by the single-error
branch of utils.CheckReturnCode. -/
def errorCapture (s : String) : Option (List Char) :=
  findCapture "\x7b\"error\":\"".toList "\"\x7d".toList s.toList

/-- utils.ScrapeErrorMessage: runs the given constant pattern (embedded as
its capture function) over the message; on no match it degrades to the fixed
generic string, otherwise it returns the first capture group. The
regexp.Compile error branch of the source is unreachable here because the
three patterns passed by CheckReturnCode are valid constants, and for them a
successful match always has at least two entries (whole match and one
group), so the len check of the source coincides with match success. -/
def ScrapeErrorMessage (message : String) (capture : String → Option (List Char)) : String :=
  match capture message with
  | none => "Error executing operation"
  | some scrapped => String.mk scrapped

/-- The rune predicate f of utils.CheckReturnCode: true exactly on the
structural characters comma, colon, braces, double quote and brackets. -/
def isSepChar (c : Char) : Bool :=
  c == ',' || c == ':' || c == '\x7b' || c == '\x7d' || c == '\"' || c == ']' || c == '['

/-- Accumulator form of Go strings.FieldsFunc: splits at characters
satisfying f and keeps the nonempty runs in order. -/
def fieldsFuncAux (f : Char → Bool) : List Char → List Char → List (List Char)
  | [], cur => if cur.isEmpty then [] else [cur.reverse]
  | c :: rest, cur =>
    if f c then
      if cur.isEmpty then fieldsFuncAux f rest []
      else cur.reverse :: fieldsFuncAux f rest []
    else fieldsFuncAux f rest (c :: cur)

/-- Go strings.FieldsFunc(s, f). -/
def fieldsFunc (f : Char → Bool) (s : List Char) : List (List Char) :=
  fieldsFuncAux f s []

/-- Go strings.Split(s, ","): splits around every comma; the result always
has at least one element. -/
def splitComma : List Char → List (List Char)
  | [] => [[]]
  | c :: rest =>
    if c = ',' then [] :: splitComma rest
    else
      match splitComma rest with
      | [] => [[c]]
      | g :: gs => (c :: g) :: gs

/-- The lines result := strings.Split(message, ","); if result != nil and
len(result) >= 1 then message = result[0] of utils.CheckReturnCode: keep the
first comma-delimited segment (the guard is always true for Go Split, and on
an empty split result the message would stay unchanged). -/
def firstCommaSegment (s : List Char) : List Char :=
  match splitComma s with
  | [] => s
  | g :: _ => g

/-- The message-determination chain of utils.CheckReturnCode: first match
wins among the html heuristic, the json-errors heuristic (capture, first
comma segment, FieldsFunc with the structural separators, join with single
spaces), the single-error heuristic, and the raw message fallback. -/
def classify (message : String) : String :=
  if containsS "<html>".toList message.toList then
    ScrapeErrorMessage message titleCapture
  else if containsS "\x7b\"errors\":\x7b".toList message.toList then
    String.mk (List.intercalate [' '] (fieldsFunc isSepChar
      (firstCommaSegment (ScrapeErrorMessage message errorsCapture).toList)))
  else if containsS "\x7b\"error\":".toList message.toList then
    ScrapeErrorMessage message errorCapture
  else message

/-- utils.CheckReturnCode(res, mesg): the source calls log.Fatal (fatal
process termination) with the report exactly when res >= 300, after running
the classification chain on the body; otherwise it returns without any
effect. The result some report models the fatal termination carrying that
report; none models the normal return. -/
def CheckReturnCode (res : Int) (mesg : String) : Option String :=
  if 300 ≤ res then some ("HTTP request failed: [" ++ classify mesg ++ "]")
  else none

/-! ### The web-service request primitives

The HTTP exchange performed by the once-constructed http.Client is the
input of each primitive: an exchange either fails to connect (a Go error
value) or yields a response. Reading the response body to the end either
yields the full byte sequence or fails after delivering a prefix (both
ioutil.ReadAll and io.Copy hand back the prefix read before the error).
Bytes are modelled as natural numbers. -/

/-- A Go error value, identified by its message. -/
structure GoError where
  msg : String
deriving DecidableEq

instance {ε α : Type} [DecidableEq ε] [DecidableEq α] : DecidableEq (Except ε α) := fun x y =>
  match x, y with
  | .error a, .error b =>
      decidable_of_iff (a = b) ⟨fun h => by rw [h], fun h => by injection h⟩
  | .error _, .ok _ => isFalse fun h => by injection h
  | .ok _, .error _ => isFalse fun h => by injection h
  | .ok a, .ok b =>
      decidable_of_iff (a = b) ⟨fun h => by rw [h], fun h => by injection h⟩

/-- The response of a completed HTTP exchange: status code, the outcome of
reading the body to the end (on failure, the partial prefix delivered
before the error), and the Content-Disposition header (none when absent). -/
structure HttpResponse where
  status : Int
  bodyRead : Except (GoError × List Nat) (List Nat)
  contentDisposition : Option String
deriving DecidableEq

/-- Go http.Header.Get for the Content-Disposition key: the header value,
or the empty string when the header is absent. -/
def headerGet : Option String → String
  | none => ""
  | some v => v

/-- Scanning the greedy class [^"]* of the constant contentDispositionRegex
filename=\"([^\"]*)\x7b1\x7d\" after the literal prefix has matched: the
capture runs to the first double quote and fails without one. -/
def scanToQuote : List Char → Option (List Char)
  | [] => none
  | c :: rest =>
    if c = '\"' then some []
    else
      match scanToQuote rest with
      | some cap => some (c :: cap)
      | none => none

/-- Go regexp.FindStringSubmatch at the constant contentDispositionRegex:
leftmost match of filename=\"([^\"]*)\x7b1\x7d\", returning the capture
group (the quoted filename). -/
def findFilename : List Char → Option (List Char)
  | [] => none
  | c :: rest =>
    if "filename=\"".toList.isPrefixOf (c :: rest) then
      match scanToQuote (List.drop "filename=\"".toList.length (c :: rest)) with
      | some cap => some cap
      | none => findFilename rest
    else findFilename rest

/-- Webservice.Post: on a transport error the error is returned; otherwise
the response body is closed and nil is returned — the status code and the
body bytes of the response do not occur in the result. -/
def Webservice.Post (exchange : Except GoError HttpResponse) : Except GoError Unit :=
  match exchange with
  | .error e => .error e
  | .ok _ => .ok ()

/-- Webservice.Get: on a transport error the error is returned with a nil
body; otherwise the body is read to the end and returned (on a read error
the partial bytes are discarded and the error returned). The status code
does not occur in the result. -/
def Webservice.Get (exchange : Except GoError HttpResponse) : Except GoError (List Nat) :=
  match exchange with
  | .error e => .error e
  | .ok r =>
    match r.bodyRead with
    | .error ep => .error ep.1
    | .ok b => .ok b

/-- Outcome of Webservice.GetFile: a returned error, a runtime panic
(the unchecked index [1] on a nil FindStringSubmatch result), or the
returned destination path. -/
inductive GetFileResult where
  | err (e : GoError)
  | panics
  | ok (path : String)
deriving DecidableEq

/-- Webservice.GetFile, shallowly embedded: besides the exchange it takes
the outcome of os.Create on the destination path. The first component is
the function's outcome; the second is the destination file produced on
disk, as path and content (none when no file was created). The
regexp.Compile error branches of the source are unreachable for the
constant pattern. On a match failure the source indexes entry 1 of a nil
slice, a runtime panic. On an io.Copy error the created file keeps the
partial prefix. -/
def Webservice.GetFile (directoryPath : String) (exchange : Except GoError HttpResponse)
    (createResult : Except GoError Unit) : GetFileResult × Option (String × List Nat) :=
  match exchange with
  | .error e => (.err e, none)
  | .ok r =>
    match findFilename (headerGet r.contentDisposition).toList with
    | none => (.panics, none)
    | some fileName =>
      let realFileName := directoryPath ++ "/" ++ String.mk fileName
      match createResult with
      | .error e => (.err e, none)
      | .ok _ =>
        match r.bodyRead with
        | .error ep => (.err ep.1, some (realFileName, ep.2))
        | .ok b => (.ok realFileName, some (realFileName, b))

/-! ### Claims -/

/-- A false Boolean condition, as needed to discharge an if branch. -/
theorem bool_ne_true {b : Bool} (h : b = false) : ¬(b = true) := by simp [h]

/-- C1: with a failure status, exactly one heuristic applies, chosen by
first match in the fixed order html page, json errors object, single json
error, raw body; a body containing the substring html-tag is always handled
by the title heuristic even when it also contains a JSON marker, and for
the body of an HTML page with title Not Found the message is Not Found. -/
theorem claim_C1 (m : String) :
    (containsS "<html>".toList m.toList = true →
      classify m = ScrapeErrorMessage m titleCapture) ∧
    (containsS "<html>".toList m.toList = false →
      containsS "\x7b\"errors\":\x7b".toList m.toList = true →
      classify m = String.mk (List.intercalate [' '] (fieldsFunc isSepChar
        (firstCommaSegment (ScrapeErrorMessage m errorsCapture).toList)))) ∧
    (containsS "<html>".toList m.toList = false →
      containsS "\x7b\"errors\":\x7b".toList m.toList = false →
      containsS "\x7b\"error\":".toList m.toList = true →
      classify m = ScrapeErrorMessage m errorCapture) ∧
    (containsS "<html>".toList m.toList = false →
      containsS "\x7b\"errors\":\x7b".toList m.toList = false →
      containsS "\x7b\"error\":".toList m.toList = false →
      classify m = m) ∧
    classify "<html><head><title>Not Found</title></head></html>" = "Not Found" := by
  refine ⟨fun h1 => ?_, fun h1 h2 => ?_, fun h1 h2 h3 => ?_, fun h1 h2 h3 => ?_, by decide⟩
  · unfold classify; rw [if_pos h1]
  · unfold classify; rw [if_neg (bool_ne_true h1), if_pos h2]
  · unfold classify; rw [if_neg (bool_ne_true h1), if_neg (bool_ne_true h2), if_pos h3]
  · unfold classify
    rw [if_neg (bool_ne_true h1), if_neg (bool_ne_true h2), if_neg (bool_ne_true h3)]

/-- Witness for C1 at a body holding both the html tag and a JSON errors
marker: the html heuristic is the one selected. -/
theorem claim_C1_witness :
    classify "<html><title>T</title>\x7b\"errors\":\x7b\"a\":\"b\"\x7d\x7d" =
      ScrapeErrorMessage "<html><title>T</title>\x7b\"errors\":\x7b\"a\":\"b\"\x7d\x7d" titleCapture :=
  (claim_C1 "<html><title>T</title>\x7b\"errors\":\x7b\"a\":\"b\"\x7d\x7d").1 (by decide)

/-- C2: a body with the json-errors marker and no html tag is classified by
capturing with the fixed errors pattern, keeping the first comma-delimited
segment, splitting at the structural characters and joining the fields with
single spaces; on the two-field example body the message is the first
field's name and text. -/
theorem claim_C2 (m : String) :
    (containsS "<html>".toList m.toList = false →
      containsS "\x7b\"errors\":\x7b".toList m.toList = true →
      classify m = String.mk (List.intercalate [' '] (fieldsFunc isSepChar
        (firstCommaSegment (ScrapeErrorMessage m errorsCapture).toList)))) ∧
    classify "\x7b\"errors\":\x7b\"name\":\"is required\",\"age\":\"must be positive\"\x7d\x7d" =
      "name is required" :=
  ⟨fun h1 h2 => by unfold classify; rw [if_neg (bool_ne_true h1), if_pos h2], by decide⟩

/-- Witness for C2 at the example body of the claim. -/
theorem claim_C2_witness :
    classify "\x7b\"errors\":\x7b\"name\":\"is required\",\"age\":\"must be positive\"\x7d\x7d" =
      String.mk (List.intercalate [' '] (fieldsFunc isSepChar (firstCommaSegment
        (ScrapeErrorMessage
          "\x7b\"errors\":\x7b\"name\":\"is required\",\"age\":\"must be positive\"\x7d\x7d"
          errorsCapture).toList))) :=
  (claim_C2 "\x7b\"errors\":\x7b\"name\":\"is required\",\"age\":\"must be positive\"\x7d\x7d").1
    (by decide) (by decide)

/-- C3: in each of the three pattern heuristics, a pattern that does not
match degrades the message to the fixed generic string Error executing
operation (classification is a total function, so no secondary failure is
possible), and a body with the html tag but no well-formed title yields
exactly that generic string. -/
theorem claim_C3 (m : String) :
    (containsS "<html>".toList m.toList = true → titleCapture m = none →
      classify m = "Error executing operation") ∧
    (containsS "<html>".toList m.toList = false →
      containsS "\x7b\"errors\":\x7b".toList m.toList = true → errorsCapture m = none →
      classify m = "Error executing operation") ∧
    (containsS "<html>".toList m.toList = false →
      containsS "\x7b\"errors\":\x7b".toList m.toList = false →
      containsS "\x7b\"error\":".toList m.toList = true → errorCapture m = none →
      classify m = "Error executing operation") ∧
    classify "<html><body>broken</body></html>" = "Error executing operation" := by
  refine ⟨fun h1 hc => ?_, fun h1 h2 hc => ?_, fun h1 h2 h3 hc => ?_, by decide⟩
  · unfold classify; rw [if_pos h1]; simp only [ScrapeErrorMessage, hc]
  · unfold classify
    rw [if_neg (bool_ne_true h1), if_pos h2]
    simp only [ScrapeErrorMessage, hc]
    decide
  · unfold classify
    rw [if_neg (bool_ne_true h1), if_neg (bool_ne_true h2), if_pos h3]
    simp only [ScrapeErrorMessage, hc]

/-- Witness for C3 at an html body with no title tag. -/
theorem claim_C3_witness :
    classify "<html><body>broken</body></html>" = "Error executing operation" :=
  (claim_C3 "<html><body>broken</body></html>").1 (by decide) (by decide)

/-- C4: CheckReturnCode terminates fatally, reporting the classified
message in the fixed format, exactly when the status is at least 300; for
any smaller status it performs nothing and returns normally. -/
theorem claim_C4 (res : Int) (mesg : String) :
    (res < 300 → CheckReturnCode res mesg = none) ∧
    (300 ≤ res →
      CheckReturnCode res mesg = some ("HTTP request failed: [" ++ classify mesg ++ "]")) ∧
    (CheckReturnCode res mesg = none ↔ res < 300) := by
  by_cases h : (300 : Int) ≤ res
  · refine ⟨fun hlt => absurd hlt (not_lt.mpr h), fun _ => by simp [CheckReturnCode, h], ?_⟩
    simp [CheckReturnCode, h, not_lt.mpr h]
  · have hlt : res < 300 := not_le.mp h
    refine ⟨fun _ => by simp [CheckReturnCode, h], fun hge => absurd hge h, ?_⟩
    simp [CheckReturnCode, h, hlt]

/-- Witness for C4 at a success status and at a failure status. -/
theorem claim_C4_witness :
    CheckReturnCode 200 "all good" = none ∧
    CheckReturnCode 404 "nope" = some ("HTTP request failed: [" ++ classify "nope" ++ "]") :=
  ⟨(claim_C4 200 "all good").1 (by decide), (claim_C4 404 "nope").2.1 (by decide)⟩

/-- C5, evaluated on the code: the claim says every request primitive hands
both the status code and the body bytes back to its caller on a successful
exchange. In the source, Post returns the same nil result for exchanges
that differ in status and body (neither is returned), and Get returns only
the body, with the same result for exchanges that differ in status. -/
theorem claim_C5_code_eval :
    Webservice.Post (.ok ⟨200, .ok [97], none⟩) = .ok () ∧
    Webservice.Post (.ok ⟨500, .ok [98, 99], none⟩) = .ok () ∧
    Webservice.Get (.ok ⟨200, .ok [104, 105], none⟩) = .ok [104, 105] ∧
    Webservice.Get (.ok ⟨200, .ok [104, 105], none⟩) =
      Webservice.Get (.ok ⟨500, .ok [104, 105], none⟩) :=
  ⟨rfl, rfl, rfl, rfl⟩

/-- C6, evaluated on the code: when the Content-Disposition header is
absent, or present but not matched by the filename pattern, GetFile
performs the unchecked index on the nil match result and panics; it does
not return a checked error. -/
theorem claim_C6_code_eval :
    Webservice.GetFile "/tmp/out" (.ok ⟨200, .ok [1, 2], none⟩) (.ok ()) = (.panics, none) ∧
    Webservice.GetFile "/tmp/out" (.ok ⟨200, .ok [1, 2], some "attachment"⟩) (.ok ()) =
      (.panics, none) :=
  ⟨rfl, rfl⟩

/-- C7: when the connection cannot be established, each primitive returns
exactly the transport error: Post and Get return it with no body, and
GetFile returns it before any destination file is created or written. -/
theorem claim_C7 (e : GoError) (dir : String) (createResult : Except GoError Unit) :
    Webservice.Post (.error e) = .error e ∧
    Webservice.Get (.error e) = .error e ∧
    Webservice.GetFile dir (.error e) createResult = (.err e, none) :=
  ⟨rfl, rfl, rfl⟩

/-- The message that claim C8 describes, modelled from the spec's words:
the quoted string value following the error marker up to the next double
quote — a lazy capture whose closing delimiter is the double quote alone,
where the code's pattern requires a double quote followed by a closing
brace. -/
def specErrorQuotedValue (s : String) : Option (List Char) :=
  findCapture "\x7b\"error\":\"".toList "\"".toList s.toList

/-- Counterexample to C8 as stated: a body carrying the single-error marker
and neither other marker, whose quoted value up to the next double quote is
foo; the code's pattern (which needs quote-brace after the value) fails to
match, so the classifier yields the generic string, not foo. -/
theorem claim_C8_counterexample :
    containsS "\x7b\"error\":".toList "\x7b\"error\":\"foo\",\"code\":5\x7d".toList = true ∧
    containsS "<html>".toList "\x7b\"error\":\"foo\",\"code\":5\x7d".toList = false ∧
    containsS "\x7b\"errors\":\x7b".toList "\x7b\"error\":\"foo\",\"code\":5\x7d".toList = false ∧
    specErrorQuotedValue "\x7b\"error\":\"foo\",\"code\":5\x7d" = some "foo".toList ∧
    classify "\x7b\"error\":\"foo\",\"code\":5\x7d" = "Error executing operation" ∧
    classify "\x7b\"error\":\"foo\",\"code\":5\x7d" ≠ "foo" := by
  decide

/-- C8 as amended: a body with the single-error marker and neither the html
tag nor the json-errors marker is classified by the fixed single-error
pattern — a lazy capture following the error marker up to the next double
quote immediately followed by a closing brace, degrading to the generic
string on no match; for the invalid-token example body the message is the
quoted value. -/
theorem claim_C8_amended (m : String) :
    (containsS "<html>".toList m.toList = false →
      containsS "\x7b\"errors\":\x7b".toList m.toList = false →
      containsS "\x7b\"error\":".toList m.toList = true →
      classify m = ScrapeErrorMessage m errorCapture) ∧
    classify "\x7b\"error\":\"invalid token\"\x7d" = "invalid token" :=
  ⟨fun h1 h2 h3 => by
    unfold classify
    rw [if_neg (bool_ne_true h1), if_neg (bool_ne_true h2), if_pos h3], by decide⟩

/-- Witness for the amended C8 at the invalid-token example body. -/
theorem claim_C8_witness :
    classify "\x7b\"error\":\"invalid token\"\x7d" =
      ScrapeErrorMessage "\x7b\"error\":\"invalid token\"\x7d" errorCapture :=
  (claim_C8_amended "\x7b\"error\":\"invalid token\"\x7d").1 (by decide) (by decide) (by decide)

/-- C9: on a successful download — exchange completed, filename captured
from the Content-Disposition header, destination file created, body copied
without error — GetFile returns the destination directory joined with the
extracted filename by a slash, and the file produced at that path holds
exactly the response body bytes. -/
theorem claim_C9 (dir : String) (r : HttpResponse) (body : List Nat) (name : List Char)
    (hb : r.bodyRead = .ok body)
    (h : findFilename (headerGet r.contentDisposition).toList = some name) :
    Webservice.GetFile dir (.ok r) (.ok ()) =
      (.ok (dir ++ "/" ++ String.mk name), some (dir ++ "/" ++ String.mk name, body)) := by
  simp only [Webservice.GetFile]
  rw [h, hb]

/-- Witness for C9: a download with header attachment filename report.csv
into the directory /tmp/out produces /tmp/out/report.csv holding the body. -/
theorem claim_C9_witness :
    Webservice.GetFile "/tmp/out"
      (.ok ⟨200, .ok [82, 1, 2], some "attachment; filename=\"report.csv\""⟩) (.ok ()) =
      (.ok "/tmp/out/report.csv", some ("/tmp/out/report.csv", [82, 1, 2])) := by
  have h := claim_C9 "/tmp/out"
    ⟨200, .ok [82, 1, 2], some "attachment; filename=\"report.csv\""⟩
    [82, 1, 2] "report.csv".toList rfl (by decide)
  exact h.trans (by decide)

/-- C10: for every body containing the html tag, the classifier's message
is the capture of the title pattern whenever one exists — including the
empty capture of an empty title pair, which yields the empty message and
the fatal report with empty brackets — and the generic string arises only
when the pattern does not match at all. -/
theorem claim_C10 :
    (∀ m : String, containsS "<html>".toList m.toList = true →
      classify m =
        match titleCapture m with
        | none => "Error executing operation"
        | some t => String.mk t) ∧
    classify "<html><head><title></title></head></html>" = "" ∧
    CheckReturnCode 500 "<html><head><title></title></head></html>" =
      some "HTTP request failed: []" := by
  refine ⟨fun m h1 => ?_, by decide, by decide⟩
  unfold classify
  rw [if_pos h1]
  rfl

/-- Witness for C10 at the empty-title body. -/
theorem claim_C10_witness :
    classify "<html><head><title></title></head></html>" =
      (match titleCapture "<html><head><title></title></head></html>" with
        | none => "Error executing operation"
        | some t => String.mk t) :=
  claim_C10.1 "<html><head><title></title></head></html>" (by decide)

end Concerto
